import Mathlib

/-!
Verification of the LD2450 radar firmware core (frame decoder, zone
evaluator, tracking selector, occupancy debouncer, command channel).
Definitions are shallow embeddings of the C sources:
`ld2450_parser.c`, `ld2450_zone.h`, `ld2450.c`, `zigbee_init.c`,
`ld2450_cmd.c`.  Machine integers are modelled as `Int`/`Nat` with
explicit wrapping where the C code wraps.
-/

namespace LD2450

/-! ### Frame decoder (ld2450_parser.c) -/

/-- Cast an integer to a signed 16-bit value (C `int16_t` conversion). -/
def toI16 (n : Int) : Int := (n + 32768) % 65536 - 32768

/-- `decode_signed_upstream`: `int16_t v = hi<<8|lo; if (hi & 0x80) v = -v + 0x8000;` -/
def decode_signed_upstream (lo hi : Nat) : Int :=
  let v := toI16 (hi * 256 + lo)
  if hi.testBit 7 then toI16 (-v + 32768) else v

/-- `decode_y_upstream`: `int16_t y = hi<<8|lo; if (y != 0) y -= 0x8000;` -/
def decode_y_upstream (lo hi : Nat) : Int :=
  let y := toI16 (hi * 256 + lo)
  if y ≠ 0 then toI16 (y - 32768) else y

/-- One radar target (`ld2450_target_t`). -/
structure Target where
  x_mm : Int
  y_mm : Int
  speed : Int
  present : Bool
deriving DecidableEq, Repr, Inhabited

/-- The all-zero target (C zero initialisation). -/
def zeroTarget : Target := ⟨0, 0, 0, false⟩

/-- One decoded frame (`ld2450_report_t`). -/
structure Report where
  targets : List Target
  target_count : Nat
  occupied : Bool
deriving DecidableEq, Repr, Inhabited

/-- The zero report a freshly `calloc`ed parser holds. -/
def zeroReport : Report :=
  ⟨[zeroTarget, zeroTarget, zeroTarget], 0, false⟩

/-- Decode one 8-byte target record starting at offset `o` of the payload
(the body of the loop in `parse_update_payload`): presence is
`y_raw_u != 0` where `y_raw_u = payload[o+3]<<8 | payload[o+2]`, and the
three coordinate fields are forced to 0 when absent. -/
def decode_target (payload : List Nat) (o : Nat) : Target :=
  { x_mm := if payload.getD (o + 3) 0 * 256 + payload.getD (o + 2) 0 ≠ 0 then
      decode_signed_upstream (payload.getD o 0) (payload.getD (o + 1) 0) else 0
    y_mm := if payload.getD (o + 3) 0 * 256 + payload.getD (o + 2) 0 ≠ 0 then
      decode_y_upstream (payload.getD (o + 2) 0) (payload.getD (o + 3) 0) else 0
    speed := if payload.getD (o + 3) 0 * 256 + payload.getD (o + 2) 0 ≠ 0 then
      decode_signed_upstream (payload.getD (o + 4) 0) (payload.getD (o + 5) 0) else 0
    present := decide (payload.getD (o + 3) 0 * 256 + payload.getD (o + 2) 0 ≠ 0) }

/-- `parse_update_payload`: decode the 24-byte payload into a report. -/
def parse_update_payload (payload : List Nat) : Report :=
  let t0 := decode_target payload 0
  let t1 := decode_target payload 8
  let t2 := decode_target payload 16
  let cnt := [t0, t1, t2].countP (·.present)
  { targets := [t0, t1, t2], target_count := cnt, occupied := decide (0 < cnt) }

/-- Does the buffer start with the 4-byte update header `AA FF 03 00`? -/
def isHeaderAt : List Nat → Bool
  | a0 :: a1 :: a2 :: a3 :: _ => a0 == 170 && a1 == 255 && a2 == 3 && a3 == 0
  | _ => false

/-- `find_update_header`: index of the first header occurrence, if any. -/
def find_update_header : List Nat → Option Nat
  | [] => none
  | b :: rest =>
    if isHeaderAt (b :: rest) then some 0
    else (find_update_header rest).map (· + 1)

/-- Result of the scan loop: remaining buffer, current report, and the
reports decoded during the loop (in order). -/
structure ScanResult where
  buf : List Nat
  report : Report
  decoded : List Report
deriving DecidableEq, Repr

/-- The frame-scan loop of `ld2450_parser_feed`, with explicit fuel.
Each iteration either terminates or consumes at least one byte, so fuel
`buf.length + 1` always suffices (`scanLoop_fuel_irrelevant`). -/
def scanLoopN : Nat → List Nat → Report → List Report → ScanResult
  | 0, buf, rep, acc => ⟨buf, rep, acc⟩
  | fuel + 1, buf, rep, acc =>
    match find_update_header buf with
    | none =>
      -- keep last 3 bytes in case a header spans the boundary
      ⟨if 3 < buf.length then buf.drop (buf.length - 3) else buf, rep, acc⟩
    | some pos =>
      let b := buf.drop pos
      if b.length < 30 then ⟨b, rep, acc⟩
      else if b.getD 28 0 == 85 && b.getD 29 0 == 204 then
        let rep' := parse_update_payload ((b.drop 4).take 24)
        scanLoopN fuel (b.drop 30) rep' (acc ++ [rep'])
      else
        -- bad end bytes: drop one byte and rescan
        scanLoopN fuel (b.drop 1) rep acc

/-- Parser state (`struct ld2450_parser`): current report and reassembly
buffer (capacity management is invisible at this level). -/
structure Parser where
  report : Report
  buf : List Nat
deriving DecidableEq, Repr

/-- A freshly created parser (`ld2450_parser_create`): zeroed. -/
def freshParser : Parser := ⟨zeroReport, []⟩

/-- The reassembly buffer after appending `data`, with the
runaway-growth guard: past 8192 bytes only the last 64 are kept. -/
def feed_buffer (p : Parser) (data : List Nat) : List Nat :=
  if 8192 < (p.buf ++ data).length then
    (p.buf ++ data).drop ((p.buf ++ data).length - 64)
  else p.buf ++ data

/-- `ld2450_parser_feed`, instrumented with the list of reports decoded
during the call.  The C function's boolean result is
`!(decoded.isEmpty)` (`ld2450_parser_feed` below). -/
def parser_feed_events (p : Parser) (data : List Nat) : Parser × List Report :=
  if data.isEmpty then (p, [])
  else
    (⟨(scanLoopN ((feed_buffer p data).length + 1) (feed_buffer p data) p.report []).report,
      (scanLoopN ((feed_buffer p data).length + 1) (feed_buffer p data) p.report []).buf⟩,
     (scanLoopN ((feed_buffer p data).length + 1) (feed_buffer p data) p.report []).decoded)

/-- `ld2450_parser_feed`: returns the new parser state and whether at
least one complete frame was decoded during the call. -/
def ld2450_parser_feed (p : Parser) (data : List Nat) : Parser × Bool :=
  let r := parser_feed_events p data
  (r.1, !r.2.isEmpty)

/-! ### Zone evaluator (ld2450_zone.h / ld2450_zone.c) -/

/-- A point in the sensor plane (`ld2450_point_t`, mm). -/
structure Point where
  x_mm : Int
  y_mm : Int
deriving DecidableEq, Repr, Inhabited

/-- A detection zone (`ld2450_zone_t`): enabled flag plus 4 vertices. -/
structure Zone where
  enabled : Bool
  v : List Point
deriving DecidableEq, Repr

/-- `point_on_segment`: exact colinearity (cross product zero) plus
bounding-box containment. -/
def point_on_segment (p a b : Point) : Bool :=
  let cross := (p.y_mm - a.y_mm) * (b.x_mm - a.x_mm) -
               (p.x_mm - a.x_mm) * (b.y_mm - a.y_mm)
  if cross ≠ 0 then false
  else
    let minx := if a.x_mm < b.x_mm then a.x_mm else b.x_mm
    let maxx := if a.x_mm > b.x_mm then a.x_mm else b.x_mm
    let miny := if a.y_mm < b.y_mm then a.y_mm else b.y_mm
    let maxy := if a.y_mm > b.y_mm then a.y_mm else b.y_mm
    decide (minx ≤ p.x_mm ∧ p.x_mm ≤ maxx ∧ miny ≤ p.y_mm ∧ p.y_mm ≤ maxy)

/-- The edges `(v[j], v[i])` in the order the C loop visits them
(`i = 0, j = 3` first, then `j` trails `i`). -/
def zoneEdges (z : Zone) : List (Point × Point) :=
  [(z.v.getD 3 default, z.v.getD 0 default),
   (z.v.getD 0 default, z.v.getD 1 default),
   (z.v.getD 1 default, z.v.getD 2 default),
   (z.v.getD 2 default, z.v.getD 3 default)]

/-- Does edge `(a, b)` straddle the horizontal line through `p` and
intersect the rightward ray from `p`?  (The toggle condition of the
ray-casting loop; the intersection abscissa uses C truncating
division.) -/
def edgeCrossesRay (p : Point) (e : Point × Point) : Bool :=
  let a := e.1
  let b := e.2
  (decide (a.y_mm > p.y_mm) != decide (b.y_mm > p.y_mm)) &&
    decide (a.x_mm + Int.tdiv ((p.y_mm - a.y_mm) * (b.x_mm - a.x_mm)) (b.y_mm - a.y_mm) ≥ p.x_mm)

/-- The body of the ray-casting loop of `ld2450_zone_contains_point`:
walk the edges, return `true` at the first on-segment hit, otherwise
toggle the parity bit on each ray crossing. -/
def containsGo (p : Point) : List (Point × Point) → Bool → Bool
  | [], inside => inside
  | e :: rest, inside =>
    if point_on_segment p e.1 e.2 then true
    else containsGo p rest (if edgeCrossesRay p e then !inside else inside)

/-- `ld2450_zone_contains_point`. -/
def ld2450_zone_contains_point (z : Zone) (p : Point) : Bool :=
  if !z.enabled then false
  else containsGo p (zoneEdges z) false

/-! ### Tracking selector (`select_single_target` in ld2450.c) -/

/-- The loop of `select_single_target`.  State: `have` flag, current
`best` target and its `best_y`. -/
def sstGo : List Target → Bool → Target → Int → Target
  | [], _, best, _ => best
  | t :: rest, haveBest, best, best_y =>
    if !t.present then sstGo rest haveBest best best_y
    else if !haveBest then sstGo rest true t t.y_mm
    else
      let best_pos := decide (best_y > 0)
      let cur_pos := decide (t.y_mm > 0)
      if cur_pos && !best_pos then sstGo rest true t t.y_mm
      else if cur_pos && best_pos then
        if t.y_mm < best_y then sstGo rest true t t.y_mm
        else sstGo rest true best best_y
      else if t.y_mm.natAbs < best_y.natAbs then sstGo rest true t t.y_mm
      else sstGo rest true best best_y

/-- `select_single_target`: note the loop runs
`for (i = 0; i < target_count && i < 3; i++)`, i.e. over the first
`min target_count 3` slots only. -/
def select_single_target (r : Report) : Target :=
  sstGo (r.targets.take (min r.target_count 3)) false zeroTarget 0

/-! ### Per-zone raw occupancy (zone evaluation in `ld2450_uart_task`) -/

inductive TrackingMode where
  | multi
  | single
deriving DecidableEq, Repr

/-- The per-zone evaluation performed each decoded frame by the UART
task: nothing is set unless reporting is enabled and the report is
occupied; disabled zones are skipped; single mode tests only the
selected target; multi mode scans target slots `0 ≤ ti < min target_count 3`
and stops at the first present target inside the zone. -/
def zone_raw_occupied (cfgEnabled : Bool) (mode : TrackingMode)
    (r : Report) (selected : Target) (z : Zone) : Bool :=
  if cfgEnabled && r.occupied then
    if !z.enabled then false
    else
      match mode with
      | .single => ld2450_zone_contains_point z ⟨selected.x_mm, selected.y_mm⟩
      | .multi =>
        (r.targets.take (min r.target_count 3)).any fun t =>
          t.present && ld2450_zone_contains_point z ⟨t.x_mm, t.y_mm⟩
  else false

/-! ### Occupancy debouncer (`sensor_poll_cb` in zigbee_init.c) -/

/-- Wrapping `uint32_t` subtraction (tick arithmetic). -/
def u32sub (a b : Nat) : Nat := (a + 4294967296 - b % 4294967296) % 4294967296

/-- Debounce state of one endpoint (entry `k` of `s_last_occupied` /
`s_last_zone_occ`, `s_pending_occupied`, `s_occupied_start_time`,
`s_pending_clear`, `s_clear_start_time`, `s_last_report_time`). -/
structure EpState where
  stable : Bool
  pendingOcc : Bool
  occStart : Int
  pendingClear : Bool
  clearStart : Nat
  lastReport : Nat
deriving DecidableEq, Repr

/-- Per-endpoint debounce parameters: `delay` in microseconds,
`cooldown` in ticks (both already converted as in the C code). -/
structure EpParams where
  delayUs : Int
  cooldownTicks : Nat
deriving DecidableEq, Repr

/-- One evaluation cycle of `sensor_poll_cb` for a single endpoint:
raw occupancy `raw` at time `nowUs` (µs, for the delay) / `nowTicks`
(ticks, for the cooldown).  Returns the new state and the transition
reported to the attribute (if any). -/
def sensor_poll_step (prm : EpParams) (st : EpState) (raw : Bool)
    (nowUs : Int) (nowTicks : Nat) : EpState × Option Bool :=
  let st1 :=
    if raw != st.stable then
      if !raw then
        let s := { st with pendingOcc := false }
        if !s.pendingClear then { s with pendingClear := true, clearStart := nowTicks } else s
      else
        let s := { st with pendingClear := false }
        if !s.pendingOcc then { s with pendingOcc := true, occStart := nowUs } else s
    else st
  if st1.pendingOcc && raw &&
      (prm.delayUs == 0 || decide (nowUs - st1.occStart ≥ prm.delayUs)) then
    ({ st1 with stable := true, pendingOcc := false, lastReport := nowTicks }, some true)
  else if st1.pendingClear && !raw &&
      (prm.cooldownTicks == 0 || decide (u32sub nowTicks st1.clearStart ≥ prm.cooldownTicks)) then
    ({ st1 with stable := false, pendingClear := false, lastReport := nowTicks }, some false)
  else (st1, none)

/-! ### Command/acknowledgement channel (ld2450_cmd.c) -/

/-- The `esp_err_t` values the command module produces. -/
inductive EspErr where
  | ok
  | fail
  | timeout
  | invalidResponse
deriving DecidableEq, Repr

/-- `send_frame` frame layout: header `FD FC FB FA`, little-endian
intra-length, command word `(id, 0x00)`, value, footer `04 03 02 01`. -/
def mkCmdFrame (cmdId : Nat) (value : List Nat) : List Nat :=
  let intraLen := 2 + value.length
  [253, 252, 251, 250] ++ [intraLen % 256, intraLen / 256 % 256] ++
    [cmdId, 0] ++ value ++ [4, 3, 2, 1]

/-- The enter-configuration-mode frame (`CMD_ENABLE_CONF`, value `01 00`). -/
def enterFrame : List Nat := mkCmdFrame 255 [1, 0]

/-- The exit-configuration-mode frame (`CMD_DISABLE_CONF`, no value). -/
def exitFrame : List Nat := mkCmdFrame 254 []

/-- The byte scan of `read_ack`: shift a rolling match window over the
incoming bytes looking for the ack header, then collect the 10 trailing
bytes (length, echoed command word, status, footer).  `none` models the
bounded-timeout case: the stream ends before an ack is assembled. -/
def ackScan : List Nat → Nat → List Nat → Option (List Nat)
  | [], _, _ => none
  | b :: rest, hdrMatched, coll =>
    if hdrMatched < 4 then
      if b == [253, 252, 251, 250].getD hdrMatched 0 then ackScan rest (hdrMatched + 1) coll
      else ackScan rest (if b == 253 then 1 else 0) coll
    else
      let coll' := coll ++ [b]
      if 10 ≤ coll'.length then some coll' else ackScan rest hdrMatched coll'

/-- `read_ack`: scan `stream` for an ack frame and validate the echoed
command id and the status word. -/
def read_ack (stream : List Nat) (expected : Nat) : EspErr :=
  match ackScan stream 0 [] with
  | none => .timeout
  | some ack =>
    if ack.getD 2 0 != expected || ack.getD 3 0 != 1 then .invalidResponse
    else if ack.getD 4 0 != 0 || ack.getD 5 0 != 0 then .fail
    else .ok

/-- The channel a command exchange talks to: whether the UART write of a
given frame succeeds, and the bytes available to the subsequent
`read_ack` (`send_frame` flushes stale input before each send, so each
ack scan reads only the response to the frame just sent).  The UART
port is assumed initialised. -/
structure Device where
  writeOk : List Nat → Bool
  resp : List Nat → List Nat

/-- `enter_config`: send the enable-configuration frame and read its ack. -/
def enter_config (dev : Device) : EspErr :=
  if dev.writeOk enterFrame then read_ack (dev.resp enterFrame) 255 else .fail

/-- `exit_config`: send the disable-configuration frame and read its ack. -/
def exit_config (dev : Device) : EspErr :=
  if dev.writeOk exitFrame then read_ack (dev.resp exitFrame) 254 else .fail

/-- `send_config_command`: enter configuration mode, delay, send the
command frame, read its ack, delay, exit configuration mode.  Returns
the `esp_err_t` result and the trace of frames handed to the UART write
in order.  (The fixed delays and the RX-task pause/resume handshake
have no effect on the exchange's data and are not modelled.) -/
def send_config_command (dev : Device) (cmdId : Nat) (value : List Nat) :
    EspErr × List (List Nat) :=
  let cF := mkCmdFrame cmdId value
  let enterRes := enter_config dev
  if enterRes != EspErr.ok then (enterRes, [enterFrame])
  else if !dev.writeOk cF then
    -- send failed: still attempt to exit config mode, return the original error
    let _ := exit_config dev
    (.fail, [enterFrame, cF, exitFrame])
  else
    match read_ack (dev.resp cF) cmdId with
    | .ok =>
      -- success path: exit_config's result is discarded
      let _ := exit_config dev
      (.ok, [enterFrame, cF, exitFrame])
    | e =>
      let _ := exit_config dev
      (e, [enterFrame, cF, exitFrame])

/-! ### Theorems -/

/-- Spec-side statement of the magnitude-plus-sign scheme: the low 15
bits are a magnitude, the top bit of the high byte is a sign flag. -/
def magPlusSign (lo hi : Nat) : Int :=
  if hi < 128 then (hi * 256 + lo : Int) else -((hi * 256 + lo : Int) - 32768)

theorem testBit7_eq (hi : Nat) (h : hi < 256) : hi.testBit 7 = decide (128 ≤ hi) := by
  rw [Nat.testBit_to_div_mod]
  rcases Nat.lt_or_ge hi 128 with hc | hc
  · have h1 : hi / 2 ^ 7 % 2 = 0 := by norm_num; omega
    simp [h1]; omega
  · have h1 : hi / 2 ^ 7 % 2 = 1 := by norm_num; omega
    simp [h1]; omega

theorem decode_signed_eq_magPlusSign (lo hi : Nat) (hlo : lo < 256) (hhi : hi < 256) :
    decode_signed_upstream lo hi = magPlusSign lo hi := by
  unfold decode_signed_upstream magPlusSign toI16
  rw [testBit7_eq hi hhi]
  rcases Nat.lt_or_ge hi 128 with hc | hc
  · have h1 : ¬(decide (128 ≤ hi) = true) := by simp; omega
    rw [if_neg h1, if_pos hc]
    omega
  · have h1 : decide (128 ≤ hi) = true := by simp [hc]
    have h2 : ¬(hi < 128) := by omega
    rw [if_pos h1, if_neg h2]
    omega

theorem decode_y_closed (lo hi : Nat) (hlo : lo < 256) (hhi : hi < 256) :
    decode_y_upstream lo hi =
      if hi * 256 + lo = 0 then 0
      else (hi : Int) * 256 + (lo : Int) - 32768 := by
  unfold decode_y_upstream toI16
  rcases Nat.eq_zero_or_pos (hi * 256 + lo) with hz | hp
  · have hz' : hi = 0 ∧ lo = 0 := by omega
    obtain ⟨rfl, rfl⟩ := hz'
    norm_num
  · have h1 : ¬(hi * 256 + lo = 0) := by omega
    rw [if_neg h1]
    have hy : (((hi : Int) * 256 + lo + 32768) % 65536 - 32768) ≠ 0 := by omega
    rw [if_pos hy]
    omega

/-- Per-record decoding facts, given byte bounds for the six bytes the
record uses. -/
theorem decode_target_spec (payload : List Nat) (o : Nat)
    (h0 : payload.getD o 0 < 256) (h1 : payload.getD (o + 1) 0 < 256)
    (h2 : payload.getD (o + 2) 0 < 256) (h3 : payload.getD (o + 3) 0 < 256)
    (h4 : payload.getD (o + 4) 0 < 256) (h5 : payload.getD (o + 5) 0 < 256) :
    ((decode_target payload o).present = true ↔
        payload.getD (o + 3) 0 * 256 + payload.getD (o + 2) 0 ≠ 0) ∧
    (payload.getD (o + 3) 0 * 256 + payload.getD (o + 2) 0 = 0 →
        decode_target payload o = zeroTarget) ∧
    (payload.getD (o + 3) 0 * 256 + payload.getD (o + 2) 0 ≠ 0 →
      (decode_target payload o).x_mm = magPlusSign (payload.getD o 0) (payload.getD (o + 1) 0) ∧
      (decode_target payload o).speed =
        magPlusSign (payload.getD (o + 4) 0) (payload.getD (o + 5) 0) ∧
      (decode_target payload o).y_mm =
        (payload.getD (o + 3) 0 : Int) * 256 + (payload.getD (o + 2) 0 : Int) - 32768) := by
  refine ⟨?_, ?_, ?_⟩
  · simp only [decode_target, decide_eq_true_eq]
  · intro h
    have hn : ¬(payload.getD (o + 3) 0 * 256 + payload.getD (o + 2) 0 ≠ 0) :=
      fun hne => hne h
    show Target.mk _ _ _ _ = _
    rw [if_neg hn, if_neg hn, if_neg hn, decide_eq_false hn]
    rfl
  · intro h
    unfold decode_target
    rw [if_pos h, if_pos h, if_pos h]
    exact ⟨decode_signed_eq_magPlusSign _ _ h0 h1,
           decode_signed_eq_magPlusSign _ _ h4 h5,
           by rw [decode_y_closed _ _ h2 h3, if_neg h]⟩

theorem payload_byte_lt (payload : List Nat) (hlen : payload.length = 24)
    (hbytes : ∀ b ∈ payload, b < 256) (k : Nat) (hk : k < 24) :
    payload.getD k 0 < 256 := by
  have hkl : k < payload.length := by omega
  have hm : payload.getD k 0 ∈ payload := by
    rw [List.getD_eq_getElem payload 0 hkl]
    exact List.getElem_mem hkl
  exact hbytes _ hm

/-- Concrete payload: target 0 has raw Y bytes `10 80` (present). -/
def demoPayloadPresent : List Nat :=
  [7, 0, 16, 128, 5, 0, 1, 0] ++ List.replicate 16 0

/-- Concrete payload: target 0 has nonzero X/speed bytes but raw Y bytes
`00 00` (absent). -/
def demoPayloadAbsent : List Nat :=
  [7, 1, 0, 0, 5, 1, 1, 0] ++ List.replicate 16 0

/-- C1: for every 24-byte payload and slot `i < 3`, the decoded target is
present iff the raw 16-bit Y value is nonzero; when raw Y is zero the
whole target is zeroed even if other bytes are nonzero; when present,
X and speed follow the magnitude-plus-sign scheme (not two's complement)
and Y is the raw unsigned value reduced by 0x8000.  Concretely,
`decode_signed_upstream 0x10 0x80 = -16` (two's complement would give
-32752), raw Y bytes `10 80` give presence, raw Y bytes `00 00` force a
zero target. -/
theorem decode_sign_presence_spec :
    (∀ (payload : List Nat), payload.length = 24 → (∀ b ∈ payload, b < 256) →
      ∀ i < 3,
        (((parse_update_payload payload).targets.getD i zeroTarget).present = true ↔
          payload.getD (8 * i + 3) 0 * 256 + payload.getD (8 * i + 2) 0 ≠ 0) ∧
        (payload.getD (8 * i + 3) 0 * 256 + payload.getD (8 * i + 2) 0 = 0 →
          (parse_update_payload payload).targets.getD i zeroTarget = zeroTarget) ∧
        (payload.getD (8 * i + 3) 0 * 256 + payload.getD (8 * i + 2) 0 ≠ 0 →
          ((parse_update_payload payload).targets.getD i zeroTarget).x_mm =
            magPlusSign (payload.getD (8 * i) 0) (payload.getD (8 * i + 1) 0) ∧
          ((parse_update_payload payload).targets.getD i zeroTarget).speed =
            magPlusSign (payload.getD (8 * i + 4) 0) (payload.getD (8 * i + 5) 0) ∧
          ((parse_update_payload payload).targets.getD i zeroTarget).y_mm =
            (payload.getD (8 * i + 3) 0 : Int) * 256 +
              (payload.getD (8 * i + 2) 0 : Int) - 32768)) ∧
    decode_signed_upstream 16 128 = -16 ∧
    toI16 (128 * 256 + 16) = -32752 ∧
    ((parse_update_payload demoPayloadPresent).targets.getD 0 zeroTarget).present = true ∧
    (parse_update_payload demoPayloadAbsent).targets.getD 0 zeroTarget = zeroTarget := by
  refine ⟨?_, by decide, by decide, by decide, by decide⟩
  intro payload hlen hb i hi
  have hbyte : ∀ k, k < 24 → payload.getD k 0 < 256 := payload_byte_lt payload hlen hb
  interval_cases i
  · simpa using decode_target_spec payload 0 (hbyte _ (by omega)) (hbyte _ (by omega))
      (hbyte _ (by omega)) (hbyte _ (by omega)) (hbyte _ (by omega)) (hbyte _ (by omega))
  · simpa using decode_target_spec payload 8 (hbyte _ (by omega)) (hbyte _ (by omega))
      (hbyte _ (by omega)) (hbyte _ (by omega)) (hbyte _ (by omega)) (hbyte _ (by omega))
  · simpa using decode_target_spec payload 16 (hbyte _ (by omega)) (hbyte _ (by omega))
      (hbyte _ (by omega)) (hbyte _ (by omega)) (hbyte _ (by omega)) (hbyte _ (by omega))

/-- Witness for C1 at the concrete present-target payload. -/
theorem decode_sign_presence_spec_witness :
    ((parse_update_payload demoPayloadPresent).targets.getD 0 zeroTarget).present = true ↔
      demoPayloadPresent.getD 3 0 * 256 + demoPayloadPresent.getD 2 0 ≠ 0 :=
  (decode_sign_presence_spec.1 demoPayloadPresent (by decide) (by decide) 0 (by decide)).1

/-- States of a debounce endpoint reachable in `sensor_poll_cb`: a
pending-occupied timer only exists while the stable state is clear, a
pending-clear timer only while it is occupied. -/
def EpInv (st : EpState) : Prop :=
  (st.pendingOcc = true → st.stable = false) ∧
  (st.pendingClear = true → st.stable = true)

/-- C2 counterexample: with delay 250 ms, a pending-occupied endpoint
(timer started at t = 0) that sees raw flip back to clear at t = 100 ms
keeps its pending flag and start time (nothing is cancelled), and a
later flip to occupied at t = 300 ms fires the stale timer immediately. -/
theorem debounce_flip_retains_pending :
    (sensor_poll_step ⟨250000, 0⟩ ⟨false, true, 0, false, 0, 0⟩ false 100000 10).1.pendingOcc
        = true ∧
    (sensor_poll_step ⟨250000, 0⟩ ⟨false, true, 0, false, 0, 0⟩ false 100000 10).1
        = ⟨false, true, 0, false, 0, 0⟩ ∧
    (sensor_poll_step ⟨250000, 0⟩ ⟨false, true, 0, false, 0, 0⟩ false 100000 10).2 = none ∧
    (sensor_poll_step ⟨250000, 0⟩ ⟨false, true, 0, false, 0, 0⟩ true 300000 30).2 = some true := by
  decide

/-- C2 (amended): on a cycle where raw equals the stable state, a
reachable endpoint emits nothing and its state — including any pending
flag and its start time — is left unchanged (the pending timer is
retained, not cancelled; it merely cannot fire while raw equals the
stable state); on a cycle where raw differs from the stable state, the
opposite-direction pending flag is always cleared. -/
theorem debounce_raw_flip_semantics (prm : EpParams) (st : EpState) (raw : Bool)
    (nowUs : Int) (nowTicks : Nat) (hInv : EpInv st) :
    (raw = st.stable → sensor_poll_step prm st raw nowUs nowTicks = (st, none)) ∧
    (raw ≠ st.stable → raw = true →
      (sensor_poll_step prm st raw nowUs nowTicks).1.pendingClear = false) ∧
    (raw ≠ st.stable → raw = false →
      (sensor_poll_step prm st raw nowUs nowTicks).1.pendingOcc = false) := by
  obtain ⟨h1, h2⟩ := hInv
  obtain ⟨stable, pOcc, oStart, pClear, cStart, lastR⟩ := st
  refine ⟨?_, ?_, ?_⟩
  · intro hr
    subst hr
    cases raw with
    | false =>
      cases pClear with
      | false => simp [sensor_poll_step]
      | true => exact Bool.noConfusion (h2 rfl)
    | true =>
      cases pOcc with
      | false => simp [sensor_poll_step]
      | true => exact Bool.noConfusion (h1 rfl)
  · intro hne hr
    subst hr
    cases stable with
    | true => exact absurd rfl hne
    | false =>
      cases pOcc <;> (simp [sensor_poll_step]; try (split <;> rfl))
  · intro hne hr
    subst hr
    cases stable with
    | false => exact absurd rfl hne
    | true =>
      cases pClear <;> (simp [sensor_poll_step]; try (split <;> rfl))

/-- Witness for C2 at a concrete pending-occupied state with raw back
at the stable (clear) value. -/
theorem debounce_raw_flip_semantics_witness :
    sensor_poll_step ⟨250000, 0⟩ ⟨false, true, 0, false, 0, 0⟩ false 100000 10
      = (⟨false, true, 0, false, 0, 0⟩, none) :=
  (debounce_raw_flip_semantics ⟨250000, 0⟩ ⟨false, true, 0, false, 0, 0⟩ false 100000 10
    (by constructor <;> simp)).1 rfl

/-- The zone used by the spec's concrete examples
(`(0,500),(500,500),(500,1500),(0,1500)` mm), enabled. -/
def zone0 : Zone := ⟨true, [⟨0, 500⟩, ⟨500, 500⟩, ⟨500, 1500⟩, ⟨0, 1500⟩]⟩

/-- A report as the parser produces when only the middle slot is
occupied: present targets need not form a prefix of the slot array. -/
def repGap : Report := ⟨[zeroTarget, ⟨250, 1000, 0, true⟩, zeroTarget], 1, true⟩

/-- A report with a positive-y target in slot 0 and a non-positive-y
target in slot 1. -/
def repPosNeg : Report := ⟨[⟨0, 200, 0, true⟩, ⟨0, -100, 0, true⟩, zeroTarget], 2, true⟩

/-- C3 (code bug): evaluating `select_single_target` at the failing
inputs.  (1) With present targets at y = +200 (slot 0) and y = -100
(slot 1), the code returns the y = -100 target: the `abs` comparison
branch runs even when the current best is positive, so a later
non-positive target with smaller |y| replaces a positive best,
contradicting the declared policy (smallest strictly-positive y first).
(2) With the only present target in slot 1 of a gapped report
(`target_count = 1`), the loop bound `i < target_count` skips it and the
zero target is returned. -/
theorem select_single_target_policy_violation :
    select_single_target repPosNeg = ⟨0, -100, 0, true⟩ ∧
    (repPosNeg.targets.getD 0 zeroTarget).present = true ∧
    (repPosNeg.targets.getD 0 zeroTarget).y_mm = 200 ∧
    select_single_target repGap = zeroTarget ∧
    (repGap.targets.getD 1 zeroTarget).present = true := by
  decide

/-- C4 (code bug): evaluating the multi-mode zone scan at the failing
input.  The report's only present target sits in slot 1 with
`target_count = 1`; it lies inside the enabled zone, yet the per-frame
raw zone occupancy is computed as `false` because the scan loop runs
only over slots `< target_count`. -/
theorem zone_eval_multi_skips_late_slots :
    zone_raw_occupied true .multi repGap zeroTarget zone0 = false ∧
    (repGap.targets.getD 1 zeroTarget).present = true ∧
    ld2450_zone_contains_point zone0 ⟨250, 1000⟩ = true ∧
    repGap.occupied = true ∧ zone0.enabled = true := by
  decide

theorem decide_succ_mod_two (c : Nat) : decide ((c + 1) % 2 = 1) = !decide (c % 2 = 1) := by
  by_cases h : c % 2 = 1
  · have h2 : (c + 1) % 2 = 0 := by omega
    simp [h, h2]
  · have h2 : (c + 1) % 2 = 1 := by omega
    simp [h, h2]

/-- The ray-casting loop returns true iff the point lies on some edge or
the parity bit ends up set: an on-edge hit short-circuits to `true`
regardless of the parity accumulated so far. -/
theorem containsGo_eq (p : Point) (es : List (Point × Point)) (inside : Bool) :
    containsGo p es inside =
      ((es.any fun e => point_on_segment p e.1 e.2) ||
        (inside != decide ((es.countP fun e => edgeCrossesRay p e) % 2 = 1))) := by
  induction es generalizing inside with
  | nil => simp [containsGo]
  | cons e rest ih =>
    by_cases hseg : point_on_segment p e.1 e.2 = true
    · simp [containsGo, hseg]
    · have hseg' : point_on_segment p e.1 e.2 = false := by
        cases h : point_on_segment p e.1 e.2
        · rfl
        · exact absurd h hseg
      simp only [containsGo, hseg', Bool.false_eq_true, if_false, List.any_cons,
        List.countP_cons, Bool.false_or]
      rw [ih]
      cases hcr : edgeCrossesRay p e
      · simp
      · simp only [if_pos rfl, decide_succ_mod_two]
        cases inside <;> cases hd : decide ((rest.countP fun e => edgeCrossesRay p e) % 2 = 1) <;>
          simp_all <;>
          first
            | exact Or.inr (by omega)
            | (intro h; exact absurd h (by omega))

/-- C7: disabled zones always test false; for enabled zones membership
is exactly "on some edge (treated as inside, taking precedence over
parity) or an odd number of edges straddle-and-cross the rightward
horizontal ray" — stated without any convexity assumption, so it covers
concave quadrilaterals.  Concretely for the example zone
`(0,500),(500,500),(500,1500),(0,1500)`: `(250,1000)` is inside,
`(600,1000)` is outside, and every point `(x,500)` with `0 ≤ x ≤ 500`
(exactly on the bottom edge) is inside. -/
theorem zone_contains_spec :
    (∀ z p, z.enabled = false → ld2450_zone_contains_point z p = false) ∧
    (∀ z p, z.enabled = true →
      ld2450_zone_contains_point z p =
        (((zoneEdges z).any fun e => point_on_segment p e.1 e.2) ||
          decide (((zoneEdges z).countP fun e => edgeCrossesRay p e) % 2 = 1))) ∧
    ld2450_zone_contains_point zone0 ⟨250, 1000⟩ = true ∧
    ld2450_zone_contains_point zone0 ⟨600, 1000⟩ = false ∧
    (∀ x : Int, 0 ≤ x → x ≤ 500 → ld2450_zone_contains_point zone0 ⟨x, 500⟩ = true) := by
  refine ⟨?_, ?_, by decide, by decide, ?_⟩
  · intro z p h
    simp [ld2450_zone_contains_point, h]
  · intro z p h
    simp [ld2450_zone_contains_point, h, containsGo_eq]
  · intro x h0 h5
    have hseg : point_on_segment ⟨x, 500⟩ ⟨0, 500⟩ ⟨500, 500⟩ = true := by
      simp [point_on_segment]
      omega
    simp [ld2450_zone_contains_point, zone0, containsGo_eq, zoneEdges, hseg]

/-- Witness for C7 at the on-edge point `(250, 500)`. -/
theorem zone_contains_spec_witness :
    ld2450_zone_contains_point zone0 ⟨250, 500⟩ = true :=
  zone_contains_spec.2.2.2.2 250 (by norm_num) (by norm_num)

/-- A channel that answers every frame with a well-formed success ack
echoing the frame's command id (frame byte 6). -/
def honestResp : List Nat → List Nat
  | _ :: _ :: _ :: _ :: _ :: _ :: c :: _ => [253, 252, 251, 250, 4, 0, c, 1, 0, 0, 4, 3, 2, 1]
  | _ => []

/-- Device whose writes always succeed and that acks every step. -/
def honestDev : Device := ⟨fun _ => true, honestResp⟩

theorem honestResp_mkCmdFrame (id : Nat) (v : List Nat) :
    honestResp (mkCmdFrame id v) = [253, 252, 251, 250, 4, 0, id, 1, 0, 0, 4, 3, 2, 1] := rfl

theorem read_ack_honest (id : Nat) :
    read_ack [253, 252, 251, 250, 4, 0, id, 1, 0, 0, 4, 3, 2, 1] id = EspErr.ok := by
  simp [read_ack, ackScan]

/-- Device that acks the enter and command steps but goes silent for the
exit-configuration frame. -/
def badExitDev : Device :=
  ⟨fun _ => true, fun f => if f == exitFrame then [] else honestResp f⟩

/-- C8 counterexample: against a channel that acks the enter and command
steps but never acks the exit step, `send_config_command` still returns
success — the exit step's acknowledgement is read but its result is
discarded, so success does not require all three acknowledgements. -/
theorem send_command_exit_ack_ignored :
    (send_config_command badExitDev 128 []).1 = EspErr.ok ∧
    exit_config badExitDev = EspErr.timeout := by decide

/-- C8 (amended): the exchange is enter frame / command frame / exit
frame in order; it returns success iff the enter step and the command
step each succeeded (write plus acknowledgement) — the exit frame is
always sent and its ack read, but its result does not affect the
returned status; against a channel that acks every step the command
returns success and the last frame sent is the exit-configuration
frame. -/
theorem send_command_success_semantics (dev : Device) (cmdId : Nat) (value : List Nat) :
    ((send_config_command dev cmdId value).1 = EspErr.ok ↔
      (enter_config dev = EspErr.ok ∧ dev.writeOk (mkCmdFrame cmdId value) = true ∧
        read_ack (dev.resp (mkCmdFrame cmdId value)) cmdId = EspErr.ok)) ∧
    (enter_config dev = EspErr.ok →
      (send_config_command dev cmdId value).2 =
        [enterFrame, mkCmdFrame cmdId value, exitFrame]) ∧
    ((send_config_command honestDev cmdId value).1 = EspErr.ok ∧
      (send_config_command honestDev cmdId value).2.getLast? = some exitFrame) := by
  refine ⟨?_, ?_, ?_⟩
  · by_cases he : enter_config dev = EspErr.ok
    · by_cases hw : dev.writeOk (mkCmdFrame cmdId value) = true
      · cases hr : read_ack (dev.resp (mkCmdFrame cmdId value)) cmdId <;>
          simp [send_config_command, he, hw, hr]
      · have hw' : dev.writeOk (mkCmdFrame cmdId value) = false := by
          cases h : dev.writeOk (mkCmdFrame cmdId value)
          · rfl
          · exact absurd h hw
        simp [send_config_command, he, hw']
    · simp [send_config_command, he]
  · intro he
    by_cases hw : dev.writeOk (mkCmdFrame cmdId value) = true
    · cases hr : read_ack (dev.resp (mkCmdFrame cmdId value)) cmdId <;>
        simp [send_config_command, he, hw, hr]
    · have hw' : dev.writeOk (mkCmdFrame cmdId value) = false := by
        cases h : dev.writeOk (mkCmdFrame cmdId value)
        · rfl
        · exact absurd h hw
      simp [send_config_command, he, hw']
  · have he : enter_config honestDev = EspErr.ok := by decide
    have hr : read_ack (honestDev.resp (mkCmdFrame cmdId value)) cmdId = EspErr.ok := by
      show read_ack (honestResp (mkCmdFrame cmdId value)) cmdId = EspErr.ok
      rw [honestResp_mkCmdFrame]
      exact read_ack_honest cmdId
    have hwr : honestDev.writeOk (mkCmdFrame cmdId value) = true := rfl
    constructor
    · simp [send_config_command, he, hr, hwr]
    · simp [send_config_command, he, hr, hwr]

/-- Witness for C8: the honest exchange sends exactly enter, command,
exit. -/
theorem send_command_success_semantics_witness :
    (send_config_command honestDev 128 []).2 = [enterFrame, mkCmdFrame 128 [], exitFrame] :=
  (send_command_success_semantics honestDev 128 []).2.1 (by decide)

/-- Channel that never answers: every ack read times out. -/
def deadDev : Device := ⟨fun _ => true, fun _ => []⟩

/-- C9: if entering configuration mode fails, the command frame is never
written and the enter-step error is returned; if the command write or
its acknowledgement fails, the exit-configuration frame is still sent
before returning, and the caller gets the original mid-exchange error
(the exit step's own result never replaces it, whatever the device
does). -/
theorem send_command_error_paths (dev : Device) (cmdId : Nat) (value : List Nat) :
    (enter_config dev ≠ EspErr.ok →
      send_config_command dev cmdId value = (enter_config dev, [enterFrame])) ∧
    (enter_config dev = EspErr.ok → dev.writeOk (mkCmdFrame cmdId value) = false →
      send_config_command dev cmdId value =
        (EspErr.fail, [enterFrame, mkCmdFrame cmdId value, exitFrame])) ∧
    (∀ e, enter_config dev = EspErr.ok → dev.writeOk (mkCmdFrame cmdId value) = true →
      read_ack (dev.resp (mkCmdFrame cmdId value)) cmdId = e → e ≠ EspErr.ok →
      send_config_command dev cmdId value =
        (e, [enterFrame, mkCmdFrame cmdId value, exitFrame])) := by
  refine ⟨?_, ?_, ?_⟩
  · intro he
    simp [send_config_command, he]
  · intro he hw
    simp [send_config_command, he, hw]
  · intro e he hw hr hne
    cases e <;> simp [send_config_command, he, hw, hr]

/-- Witness for C9: a silent channel fails the enter step with a
timeout and nothing but the enter frame is ever written. -/
theorem send_command_error_paths_witness :
    send_config_command deadDev 128 [] = (EspErr.timeout, [enterFrame]) := by
  have h := (send_command_error_paths deadDev 128 []).1 (by decide)
  rw [h]
  decide

/-! ### Scan-loop lemmas -/

theorem isHeaderAt_of_short (l : List Nat) (h : l.length < 4) : isHeaderAt l = false := by
  match l, h with
  | [], _ => rfl
  | [a], _ => rfl
  | [a, b], _ => rfl
  | [a, b, c], _ => rfl
  | a :: b :: c :: d :: t, h => simp at h; omega

theorem find_none_of_short (l : List Nat) (h : l.length < 4) :
    find_update_header l = none := by
  induction l with
  | nil => rfl
  | cons b rest ih =>
    rw [find_update_header, if_neg, ih]
    · rfl
    · simp at h
      omega
    · rw [isHeaderAt_of_short _ h]
      simp

theorem find_of_isHeaderAt (l : List Nat) (h : isHeaderAt l = true) :
    find_update_header l = some 0 := by
  cases l with
  | nil => exact absurd h (by decide)
  | cons b rest => rw [find_update_header, if_pos h]

theorem find_isHeaderAt (l : List Nat) (p : Nat) (h : find_update_header l = some p) :
    isHeaderAt (l.drop p) = true := by
  induction l generalizing p with
  | nil => simp [find_update_header] at h
  | cons b rest ih =>
    rw [find_update_header] at h
    by_cases hh : isHeaderAt (b :: rest) = true
    · rw [if_pos hh] at h
      have hp : p = 0 := by injection h with h0; omega
      subst hp
      simpa using hh
    · rw [if_neg hh] at h
      cases hfr : find_update_header rest with
      | none => rw [hfr] at h; simp at h
      | some q =>
        rw [hfr] at h
        simp at h
        subst h
        simpa using ih q hfr

theorem find_eq_of_first (l : List Nat) (j : Nat)
    (hj : isHeaderAt (l.drop j) = true)
    (hmin : ∀ i, i < j → isHeaderAt (l.drop i) = false) :
    find_update_header l = some j := by
  induction l generalizing j with
  | nil =>
    rw [List.drop_nil] at hj
    exact absurd hj (by decide)
  | cons b rest ih =>
    cases j with
    | zero =>
      rw [List.drop_zero] at hj
      exact find_of_isHeaderAt _ hj
    | succ j' =>
      have hb : isHeaderAt (b :: rest) = false := by
        have := hmin 0 (by omega)
        simpa using this
      rw [find_update_header, if_neg (by simp [hb]), ih j' (by simpa using hj)]
      · rfl
      · intro i hi
        have := hmin (i + 1) (by omega)
        simpa using this

theorem scanLoopN_short (n : Nat) (buf : List Nat) (rep : Report) (acc : List Report)
    (h : buf.length ≤ 3) : scanLoopN n buf rep acc = ⟨buf, rep, acc⟩ := by
  cases n with
  | zero => rfl
  | succ m =>
    rw [scanLoopN, find_none_of_short _ (by omega)]
    simp
    omega

theorem scanLoopN_header_incomplete (n : Nat) (buf : List Nat) (rep : Report) (acc : List Report)
    (hh : isHeaderAt buf = true) (hl : buf.length < 30) :
    scanLoopN n buf rep acc = ⟨buf, rep, acc⟩ := by
  cases n with
  | zero => rfl
  | succ m =>
    rw [scanLoopN, find_of_isHeaderAt _ hh]
    simp [hl]

theorem scanLoopN_valid_at (n : Nat) (buf : List Nat) (rep : Report) (acc : List Report)
    (pos : Nat) (P : List Nat) (hn : 2 ≤ n)
    (hfind : find_update_header buf = some pos)
    (hdrop : buf.drop pos = 170 :: 255 :: 3 :: 0 :: (P ++ [85, 204]))
    (hP : P.length = 24) :
    scanLoopN n buf rep acc =
      ⟨[], parse_update_payload P, acc ++ [parse_update_payload P]⟩ := by
  obtain ⟨m, rfl⟩ : ∃ m, n = m + 2 := ⟨n - 2, by omega⟩
  show scanLoopN ((m + 1) + 1) buf rep acc = _
  rw [scanLoopN, hfind]
  have hblen : (buf.drop pos).length = 30 := by
    rw [hdrop]
    simp [hP]
  have hb28 : (buf.drop pos).getD 28 0 = 85 := by
    rw [hdrop]
    show (P ++ [85, 204]).getD 24 0 = 85
    rw [List.getD_eq_getD_get?, List.get?_append_right (by omega), hP]
    rfl
  have hb29 : (buf.drop pos).getD 29 0 = 204 := by
    rw [hdrop]
    show (P ++ [85, 204]).getD 25 0 = 204
    rw [List.getD_eq_getD_get?, List.get?_append_right (by omega), hP]
    rfl
  have hpay : ((buf.drop pos).drop 4).take 24 = P := by
    rw [hdrop]
    show (P ++ [85, 204]).take 24 = P
    rw [← hP, List.take_left]
  have hrest : (buf.drop pos).drop 30 = [] := by
    apply List.eq_nil_of_length_eq_zero
    rw [List.length_drop, hblen]
  simp only [hblen]
  rw [if_neg (by omega), if_pos (by rw [hb28, hb29]; rfl), hpay, hrest,
    scanLoopN_short _ _ _ _ (by simp)]

/-- C5: a valid 30-byte frame fed whole decodes in one call; fed as any
split `k / 30-k` with `1 ≤ k ≤ 29`, the first call returns false and
holds the prefix, the second call returns true, and the resulting
report is identical to the one-call decode (and equals the payload's
decoding). -/
theorem feed_buffer_small (p : Parser) (data : List Nat)
    (h : (p.buf ++ data).length ≤ 8192) : feed_buffer p data = p.buf ++ data := by
  rw [feed_buffer, if_neg (by omega)]

theorem split_frame_idempotence (payload : List Nat) (hlen : payload.length = 24)
    (k : Nat) (hk1 : 1 ≤ k) (hk2 : k ≤ 29) :
    (ld2450_parser_feed freshParser ([170, 255, 3, 0] ++ payload ++ [85, 204])).2 = true ∧
    (ld2450_parser_feed freshParser
        (([170, 255, 3, 0] ++ payload ++ [85, 204]).take k)).2 = false ∧
    (ld2450_parser_feed
        (ld2450_parser_feed freshParser
          (([170, 255, 3, 0] ++ payload ++ [85, 204]).take k)).1
        (([170, 255, 3, 0] ++ payload ++ [85, 204]).drop k)).2 = true ∧
    (ld2450_parser_feed
        (ld2450_parser_feed freshParser
          (([170, 255, 3, 0] ++ payload ++ [85, 204]).take k)).1
        (([170, 255, 3, 0] ++ payload ++ [85, 204]).drop k)).1.report =
      (ld2450_parser_feed freshParser ([170, 255, 3, 0] ++ payload ++ [85, 204])).1.report ∧
    (ld2450_parser_feed freshParser ([170, 255, 3, 0] ++ payload ++ [85, 204])).1.report =
      parse_update_payload payload := by
  have hflen : ([170, 255, 3, 0] ++ payload ++ [85, 204]).length = 30 := by
    simp [hlen]
  have hhdr : isHeaderAt ([170, 255, 3, 0] ++ payload ++ [85, 204]) = true := rfl
  have hfind : find_update_header ([170, 255, 3, 0] ++ payload ++ [85, 204]) = some 0 :=
    find_of_isHeaderAt _ hhdr
  have hdrop0 : ([170, 255, 3, 0] ++ payload ++ [85, 204]).drop 0 =
      170 :: 255 :: 3 :: 0 :: (payload ++ [85, 204]) := rfl
  have htlen : (([170, 255, 3, 0] ++ payload ++ [85, 204]).take k).length = k := by
    rw [List.length_take, hflen]
    omega
  -- one-call feed
  have hwhole : parser_feed_events freshParser ([170, 255, 3, 0] ++ payload ++ [85, 204]) =
      (⟨parse_update_payload payload, []⟩, [parse_update_payload payload]) := by
    rw [parser_feed_events, if_neg (by intro hcon; exact Bool.noConfusion hcon)]
    have hfb : feed_buffer freshParser ([170, 255, 3, 0] ++ payload ++ [85, 204]) =
        [170, 255, 3, 0] ++ payload ++ [85, 204] := by
      rw [feed_buffer_small]
      · show [] ++ _ = _
        rw [List.nil_append]
      · show ([] ++ ([170, 255, 3, 0] ++ payload ++ [85, 204])).length ≤ 8192
        rw [List.nil_append, hflen]
        omega
    rw [hfb, scanLoopN_valid_at _ _ _ _ 0 payload (by omega) hfind hdrop0 hlen]
    rfl
  -- the first feed holds the incomplete tail and decodes nothing
  have hpart : parser_feed_events freshParser
      (([170, 255, 3, 0] ++ payload ++ [85, 204]).take k) =
      (⟨zeroReport, ([170, 255, 3, 0] ++ payload ++ [85, 204]).take k⟩, []) := by
    have hne : ¬((([170, 255, 3, 0] ++ payload ++ [85, 204]).take k).isEmpty = true) := by
      rw [List.isEmpty_iff]
      intro hcon
      have h0 := htlen
      rw [hcon] at h0
      simp at h0
      omega
    rw [parser_feed_events, if_neg hne]
    have hfb : feed_buffer freshParser (([170, 255, 3, 0] ++ payload ++ [85, 204]).take k) =
        ([170, 255, 3, 0] ++ payload ++ [85, 204]).take k := by
      rw [feed_buffer_small]
      · show [] ++ _ = _
        rw [List.nil_append]
      · show ([] ++ (([170, 255, 3, 0] ++ payload ++ [85, 204]).take k)).length ≤ 8192
        rw [List.nil_append, htlen]
        omega
    rw [hfb]
    rcases Nat.lt_or_ge k 4 with hk4 | hk4
    · rw [scanLoopN_short _ _ _ _ (by rw [htlen]; omega)]
      rfl
    · obtain ⟨k4, hk40⟩ : ∃ k4, k = k4 + 4 := ⟨k - 4, by omega⟩
      have hh : isHeaderAt (([170, 255, 3, 0] ++ payload ++ [85, 204]).take k) = true := by
        subst hk40
        rfl
      rw [scanLoopN_header_incomplete _ _ _ _ hh (by rw [htlen]; omega)]
      rfl
  -- second feed reassembles the whole frame and decodes it
  have hsecond : parser_feed_events
      ⟨zeroReport, ([170, 255, 3, 0] ++ payload ++ [85, 204]).take k⟩
      (([170, 255, 3, 0] ++ payload ++ [85, 204]).drop k) =
      (⟨parse_update_payload payload, []⟩, [parse_update_payload payload]) := by
    have hdlen : ((([170, 255, 3, 0] ++ payload ++ [85, 204])).drop k).length = 30 - k := by
      rw [List.length_drop, hflen]
    have hne : ¬(((([170, 255, 3, 0] ++ payload ++ [85, 204])).drop k).isEmpty = true) := by
      rw [List.isEmpty_iff]
      intro hcon
      rw [hcon] at hdlen
      simp at hdlen
      omega
    rw [parser_feed_events, if_neg hne]
    have hfb : feed_buffer ⟨zeroReport, ([170, 255, 3, 0] ++ payload ++ [85, 204]).take k⟩
        (([170, 255, 3, 0] ++ payload ++ [85, 204]).drop k) =
        [170, 255, 3, 0] ++ payload ++ [85, 204] := by
      rw [feed_buffer_small]
      · show (([170, 255, 3, 0] ++ payload ++ [85, 204]).take k) ++ _ = _
        rw [List.take_append_drop]
      · show ((([170, 255, 3, 0] ++ payload ++ [85, 204]).take k) ++
            (([170, 255, 3, 0] ++ payload ++ [85, 204]).drop k)).length ≤ 8192
        rw [List.take_append_drop, hflen]
        omega
    rw [hfb, scanLoopN_valid_at _ _ _ _ 0 payload (by omega) hfind hdrop0 hlen]
    rfl
  -- assemble the claim from the three feed computations
  have h1 : ld2450_parser_feed freshParser ([170, 255, 3, 0] ++ payload ++ [85, 204]) =
      (⟨parse_update_payload payload, []⟩, true) := by
    rw [ld2450_parser_feed, hwhole]
    rfl
  have h2 : ld2450_parser_feed freshParser
      (([170, 255, 3, 0] ++ payload ++ [85, 204]).take k) =
      (⟨zeroReport, ([170, 255, 3, 0] ++ payload ++ [85, 204]).take k⟩, false) := by
    rw [ld2450_parser_feed, hpart]
    rfl
  have h3 : ld2450_parser_feed
      ⟨zeroReport, ([170, 255, 3, 0] ++ payload ++ [85, 204]).take k⟩
      (([170, 255, 3, 0] ++ payload ++ [85, 204]).drop k) =
      (⟨parse_update_payload payload, []⟩, true) := by
    rw [ld2450_parser_feed, hsecond]
    rfl
  refine ⟨by rw [h1], by rw [h2], ?_, ?_, by rw [h1]⟩
  · rw [h2]
    show (ld2450_parser_feed ⟨zeroReport, _⟩ _).2 = true
    rw [h3]
  · rw [h2]
    show (ld2450_parser_feed ⟨zeroReport, _⟩ _).1.report = _
    rw [h3, h1]

/-- Witness for C5: the host-test frame split at byte 7. -/
theorem split_frame_idempotence_witness :
    (ld2450_parser_feed freshParser
        (([170, 255, 3, 0] ++ (List.replicate 24 1) ++ [85, 204]).take 7)).2 = false :=
  (split_frame_idempotence (List.replicate 24 1) (by simp) 7 (by omega) (by omega)).2.1

theorem getD_append_lt (l1 l2 : List Nat) (n : Nat) (h : n < l1.length) :
    (l1 ++ l2).getD n 0 = l1.getD n 0 := by
  rw [List.getD_eq_getD_get?, List.get?_append h, ← List.getD_eq_getD_get?]

theorem getD_append_len (l1 l2 : List Nat) (n : Nat) (h : l1.length = n) :
    (l1 ++ l2).getD n 0 = l2.getD 0 0 := by
  rw [List.getD_eq_getD_get?, List.get?_append_right (by omega), h, Nat.sub_self,
    ← List.getD_eq_getD_get?]

/-- A found header whose end bytes do not match costs exactly one
dropped byte before rescanning. -/
theorem scanLoopN_bad_footer (n : Nat) (buf : List Nat) (rep : Report) (acc : List Report)
    (hh : isHeaderAt buf = true) (hlen : ¬buf.length < 30)
    (hfoot : (buf.getD 28 0 == 85 && buf.getD 29 0 == 204) = false) :
    scanLoopN (n + 1) buf rep acc = scanLoopN n (buf.drop 1) rep acc := by
  rw [scanLoopN, find_of_isHeaderAt _ hh]
  show (if (buf.drop 0).length < 30 then _ else _) = _
  simp only [List.drop_zero]
  rw [if_neg hlen, if_neg (by rw [hfoot]; exact Bool.noConfusion)]

/-- Concrete corrupted payload: it embeds a spurious header copy at
offset 4, so the embedded header occurs at stream position 8. -/
def p1Cex : List Nat := [0, 0, 0, 0, 170, 255, 3, 0] ++ List.replicate 16 0

/-- Concrete valid payload: bytes 2,3 are `55 CC`, which is exactly what
the misaligned footer check of the spurious frame lands on. -/
def p2Cex : List Nat := [0, 0, 85, 204] ++ List.replicate 20 0

/-- Corrupted frame (footer replaced by `00 00`) immediately followed by
a valid frame. -/
def streamCex : List Nat :=
  ([170, 255, 3, 0] ++ p1Cex ++ [0, 0]) ++ ([170, 255, 3, 0] ++ p2Cex ++ [85, 204])

/-- C6 counterexample: on this corrupted-then-valid stream the parser
decodes exactly one frame, but it is a bogus frame assembled from the
spurious header embedded in the corrupted payload — not the valid
frame — so the final report differs from the valid frame's decoding. -/
theorem resync_misaligned_decode :
    (parser_feed_events freshParser streamCex).2.length = 1 ∧
    (parser_feed_events freshParser streamCex).1.report ≠ parse_update_payload p2Cex ∧
    (streamCex.getD 28 0 == 85 && streamCex.getD 29 0 == 204) = false := by
  decide

/-- C6 (amended): when the end bytes after a found header do not match,
the parser drops exactly one byte and rescans (it never discards the
whole buffer); consequently a corrupted frame followed by a valid frame
decodes exactly the valid frame — provided no spurious header occurrence
starts inside the corrupted bytes (positions 1..29 of the stream), a
side condition the counterexample shows is necessary. -/
theorem resync_drop_one_and_recover :
    (∀ (n : Nat) (buf : List Nat) (rep : Report) (acc : List Report),
      isHeaderAt buf = true → ¬buf.length < 30 →
      (buf.getD 28 0 == 85 && buf.getD 29 0 == 204) = false →
      scanLoopN (n + 1) buf rep acc = scanLoopN n (buf.drop 1) rep acc) ∧
    (∀ (P1 P2 : List Nat) (f0 f1 : Nat),
      P1.length = 24 → P2.length = 24 → ¬(f0 = 85 ∧ f1 = 204) →
      (∀ j, 1 ≤ j → j ≤ 29 →
        isHeaderAt ((([170, 255, 3, 0] ++ P1 ++ [f0, f1]) ++
          ([170, 255, 3, 0] ++ P2 ++ [85, 204])).drop j) = false) →
      parser_feed_events freshParser
          (([170, 255, 3, 0] ++ P1 ++ [f0, f1]) ++ ([170, 255, 3, 0] ++ P2 ++ [85, 204])) =
        (⟨parse_update_payload P2, []⟩, [parse_update_payload P2])) := by
  constructor
  · exact scanLoopN_bad_footer
  · intro P1 P2 f0 f1 h1 h2 hbad hnosp
    have hcor : ([170, 255, 3, 0] ++ P1 ++ [f0, f1]).length = 30 := by
      simp [h1]
    have hSlen : (([170, 255, 3, 0] ++ P1 ++ [f0, f1]) ++
        ([170, 255, 3, 0] ++ P2 ++ [85, 204])).length = 60 := by
      simp [h1, h2]
    have hS28 : ((([170, 255, 3, 0] ++ P1 ++ [f0, f1]) ++
        ([170, 255, 3, 0] ++ P2 ++ [85, 204])).getD 28 0) = f0 := by
      rw [getD_append_lt _ _ _ (by rw [hcor]; omega)]
      have hred : ([170, 255, 3, 0] ++ P1 ++ [f0, f1]).getD 28 0 =
          (P1 ++ [f0, f1]).getD 24 0 := rfl
      rw [hred, getD_append_len _ _ _ h1]
      rfl
    have hS29 : ((([170, 255, 3, 0] ++ P1 ++ [f0, f1]) ++
        ([170, 255, 3, 0] ++ P2 ++ [85, 204])).getD 29 0) = f1 := by
      rw [getD_append_lt _ _ _ (by rw [hcor]; omega)]
      have hred : ([170, 255, 3, 0] ++ P1 ++ [f0, f1]).getD 29 0 =
          (P1 ++ [f0, f1]).getD 25 0 := rfl
      rw [hred]
      rw [List.getD_eq_getD_get?, List.get?_append_right (by omega), h1]
      rfl
    have hfoot : ((([170, 255, 3, 0] ++ P1 ++ [f0, f1]) ++
        ([170, 255, 3, 0] ++ P2 ++ [85, 204])).getD 28 0 == 85 &&
        (([170, 255, 3, 0] ++ P1 ++ [f0, f1]) ++
        ([170, 255, 3, 0] ++ P2 ++ [85, 204])).getD 29 0 == 204) = false := by
      rw [hS28, hS29]
      rcases Decidable.not_and_iff_or_not.mp hbad with h | h <;> simp [h]
    have hdrop30 : ((([170, 255, 3, 0] ++ P1 ++ [f0, f1]) ++
        ([170, 255, 3, 0] ++ P2 ++ [85, 204])).drop 1).drop 29 =
        170 :: 255 :: 3 :: 0 :: (P2 ++ [85, 204]) := by
      rw [List.drop_drop]
      show ((([170, 255, 3, 0] ++ P1 ++ [f0, f1]) ++
        ([170, 255, 3, 0] ++ P2 ++ [85, 204])).drop 30) = _
      rw [← hcor, List.drop_left]
      rfl
    have hfind2 : find_update_header ((([170, 255, 3, 0] ++ P1 ++ [f0, f1]) ++
        ([170, 255, 3, 0] ++ P2 ++ [85, 204])).drop 1) = some 29 := by
      apply find_eq_of_first
      · rw [hdrop30]
        rfl
      · intro i hi
        rw [List.drop_drop]
        exact hnosp (1 + i) (by omega) (by omega)
    rw [parser_feed_events, if_neg (by intro hcon; exact Bool.noConfusion hcon)]
    have hfb : feed_buffer freshParser (([170, 255, 3, 0] ++ P1 ++ [f0, f1]) ++
        ([170, 255, 3, 0] ++ P2 ++ [85, 204])) =
        ([170, 255, 3, 0] ++ P1 ++ [f0, f1]) ++ ([170, 255, 3, 0] ++ P2 ++ [85, 204]) := by
      rw [feed_buffer_small]
      · show [] ++ _ = _
        rw [List.nil_append]
      · show ([] ++ _).length ≤ 8192
        rw [List.nil_append, hSlen]
        omega
    have hhdr2 : isHeaderAt (([170, 255, 3, 0] ++ P1 ++ [f0, f1]) ++
        ([170, 255, 3, 0] ++ P2 ++ [85, 204])) = true := rfl
    have hstep := scanLoopN_bad_footer
      ((([170, 255, 3, 0] ++ P1 ++ [f0, f1]) ++ ([170, 255, 3, 0] ++ P2 ++ [85, 204])).length)
      (([170, 255, 3, 0] ++ P1 ++ [f0, f1]) ++ ([170, 255, 3, 0] ++ P2 ++ [85, 204]))
      freshParser.report [] hhdr2 (by rw [hSlen]; omega) hfoot
    rw [hfb, hstep,
      scanLoopN_valid_at _ _ _ _ 29 P2 (by rw [hSlen]; omega) hfind2 hdrop30 h2]
    rfl

/-- Witness for C6 at concrete all-zero payloads with footer `00 00`. -/
theorem resync_drop_one_and_recover_witness :
    parser_feed_events freshParser
        (([170, 255, 3, 0] ++ List.replicate 24 0 ++ [0, 0]) ++
          ([170, 255, 3, 0] ++ List.replicate 24 0 ++ [85, 204])) =
      (⟨parse_update_payload (List.replicate 24 0), []⟩,
        [parse_update_payload (List.replicate 24 0)]) :=
  resync_drop_one_and_recover.2 (List.replicate 24 0) (List.replicate 24 0) 0 0
    (by decide) (by decide) (by decide) (by decide)

/-! ### C10: the reassembly buffer stays bounded -/

/-- The claimed residual-buffer invariant: at most 29 bytes, and either
no header with at most a 3-byte tail, or a header-led incomplete frame. -/
def bufInvariant (buf : List Nat) : Prop :=
  buf.length ≤ 29 ∧
    ((find_update_header buf = none ∧ buf.length ≤ 3) ∨
      (isHeaderAt buf = true ∧ buf.length < 30))

theorem scanLoopN_post (n : Nat) (buf : List Nat) (rep : Report) (acc : List Report)
    (h : buf.length < n) : bufInvariant (scanLoopN n buf rep acc).buf := by
  induction n generalizing buf rep acc with
  | zero => omega
  | succ m ih =>
    rw [scanLoopN]
    cases hfind : find_update_header buf with
    | none =>
      by_cases h3 : 3 < buf.length
      · show bufInvariant (if 3 < buf.length then buf.drop (buf.length - 3) else buf)
        rw [if_pos h3]
        have hl : (buf.drop (buf.length - 3)).length = 3 := by
          rw [List.length_drop]
          omega
        exact ⟨by omega, Or.inl ⟨find_none_of_short _ (by omega), by omega⟩⟩
      · show bufInvariant (if 3 < buf.length then buf.drop (buf.length - 3) else buf)
        rw [if_neg h3]
        exact ⟨by omega, Or.inl ⟨hfind, by omega⟩⟩
    | some pos =>
      have hb := find_isHeaderAt buf pos hfind
      have hple : (buf.drop pos).length = buf.length - pos := by
        rw [List.length_drop]
      simp only [hfind]
      by_cases h30 : (buf.drop pos).length < 30
      · rw [if_pos h30]
        show bufInvariant (buf.drop pos)
        exact ⟨by omega, Or.inr ⟨hb, h30⟩⟩
      · rw [if_neg h30]
        by_cases hft : ((buf.drop pos).getD 28 0 == 85 && (buf.drop pos).getD 29 0 == 204) = true
        · rw [if_pos hft]
          apply ih
          have e1 : ((buf.drop pos).drop 30).length = (buf.drop pos).length - 30 := by
            rw [List.length_drop]
          omega
        · rw [if_neg hft]
          apply ih
          have e1 : ((buf.drop pos).drop 1).length = (buf.drop pos).length - 1 := by
            rw [List.length_drop]
          omega

/-- C10: starting from a fresh parser, after any sequence of feed calls
the reassembly buffer holds at most 29 bytes: either no header and at
most 3 trailing bytes, or an incomplete header-led frame of fewer than
30 bytes — independent of how many bytes were fed. -/
theorem parser_buffer_bounded (feeds : List (List Nat)) :
    bufInvariant ((feeds.foldl (fun s d => (ld2450_parser_feed s d).1) freshParser).buf) := by
  suffices h : ∀ p : Parser, bufInvariant p.buf →
      bufInvariant ((feeds.foldl (fun s d => (ld2450_parser_feed s d).1) p).buf) by
    exact h freshParser ⟨by decide, Or.inl ⟨rfl, by decide⟩⟩
  induction feeds with
  | nil => intro p hp; exact hp
  | cons d rest ih =>
    intro p hp
    rw [List.foldl_cons]
    apply ih
    show bufInvariant ((parser_feed_events p d).1.buf)
    rw [parser_feed_events]
    by_cases hd : d.isEmpty = true
    · rw [if_pos hd]
      exact hp
    · rw [if_neg hd]
      exact scanLoopN_post _ _ _ _ (by omega)

end LD2450
